import Mathlib

/-
Verification of the adaptive face-detection/filtering core of the
face_backend repository, as a shallow embedding in Lean 4.

Pixel-level numeric library calls (grayscale statistics, Canny edges,
Laplacian variance, square roots) are modelled as oracle parameters: the
claims under verification are independent of the concrete values those
calls return, so every theorem quantifies over the oracles.  All machine
arithmetic in the filtering logic is exact rational arithmetic in the
source (Python ints and floats used only for comparisons against simple
constants), so it is embedded with Rat and Int.
-/

namespace FaceCore

/-- A bounding box (x1, y1, x2, y2), as produced by the detector backends. -/
structure Box where
  x1 : Int
  y1 : Int
  x2 : Int
  y2 : Int
deriving DecidableEq

/-- A face candidate: the loosely-typed Python mapping with keys
bbox, confidence, and the optionally-present region_quality /
strategy_quality / edge_detection keys, modelled as a record with
Option fields for the keys that appear only after certain stages run. -/
structure Face where
  bbox : Box
  confidence : Rat
  region_quality : Option Rat
  strategy_quality : Option Rat
  edge_detection : Bool
deriving DecidableEq

/-- The image as seen by the filtering logic: its dimensions plus an
oracle for the region-quality pixel analysis performed by
IntelligentFaceDetector._analyze_face_region_quality (Canny edges,
grayscale statistics), which only ever depends on the cropped box. -/
structure Image where
  height : Nat
  width : Nat
  rq : Box → Rat

/-- Area of a box, as computed by the source (x2-x1)*(y2-y1). -/
def boxArea (b : Box) : Int := (b.x2 - b.x1) * (b.y2 - b.y1)

/-- IoU of two boxes, translated from _calculate_overlap_ratio /
_calculate_overlap: zero when the intersection is degenerate or the
union is non-positive, otherwise intersection / union. -/
def iou (a b : Box) : Rat :=
  let xi1 := max a.x1 b.x1
  let yi1 := max a.y1 b.y1
  let xi2 := min a.x2 b.x2
  let yi2 := min a.y2 b.y2
  if xi2 ≤ xi1 ∨ yi2 ≤ yi1 then 0
  else
    let inter := (xi2 - xi1) * (yi2 - yi1)
    let uni := boxArea a + boxArea b - inter
    if 0 < uni then (inter : Rat) / (uni : Rat) else 0

theorem iou_comm (a b : Box) : iou a b = iou b a := by
  unfold iou
  simp only [max_comm a.x1 b.x1, max_comm a.y1 b.y1, min_comm a.x2 b.x2,
    min_comm a.y2 b.y2, add_comm (boxArea a) (boxArea b)]

/-! ## SmartFaceFilter (core/smart_face_filter.py) -/

/-- SmartFaceFilter._filter_by_size, returning (kept, removed): a
candidate is removed when width or height is below
min(30, 2 percent of min(W,H)), or above 80 percent of min(W,H), or its
area exceeds 25 percent of the image area. -/
def filterBySize (img : Image) : List Face → List Face × List Face
  | [] => ([], [])
  | f :: rest =>
    let w : Rat := ((f.bbox.x2 - f.bbox.x1 : Int) : Rat)
    let h : Rat := ((f.bbox.y2 - f.bbox.y1 : Int) : Rat)
    let m : Rat := ((min img.width img.height : Nat) : Rat)
    let minSize : Rat := min 30 (m * (2/100))
    let maxSize : Rat := m * (8/10)
    let imgArea : Rat := ((img.height * img.width : Nat) : Rat)
    let tail := filterBySize img rest
    if w < minSize ∨ h < minSize ∨ maxSize < w ∨ maxSize < h ∨
        imgArea * (25/100) < w * h then
      (tail.1, f :: tail.2)
    else (f :: tail.1, tail.2)

/-- The discard condition exactly as the claim words it, with a
max(30, 2 percent) lower bound instead of the min the source uses; kept
for comparison against filterBySize. -/
def specSizeDiscard (img : Image) (f : Face) : Prop :=
  let w : Rat := ((f.bbox.x2 - f.bbox.x1 : Int) : Rat)
  let h : Rat := ((f.bbox.y2 - f.bbox.y1 : Int) : Rat)
  let m : Rat := ((min img.width img.height : Nat) : Rat)
  let minSize : Rat := max 30 (m * (2/100))
  let maxSize : Rat := m * (8/10)
  let imgArea : Rat := ((img.height * img.width : Nat) : Rat)
  w < minSize ∨ h < minSize ∨ maxSize < w ∨ maxSize < h ∨
    imgArea * (25/100) < w * h

instance (img : Image) (f : Face) : Decidable (specSizeDiscard img f) := by
  unfold specSizeDiscard; infer_instance

/-- A 2000 by 2000 test image (the rq oracle is irrelevant to the size
and position filters). -/
def img2000 : Image := ⟨2000, 2000, fun _ => 0⟩

/-- A 35 by 35 candidate at the origin of a 2000 by 2000 image. -/
def face35 : Face := ⟨⟨0, 0, 35, 35⟩, 1/2, none, none, false⟩

/-- C3, counterexample: on a 2000 by 2000 image the claim's size floor is
max(30, 40) = 40, so a 35 by 35 candidate should be discarded, yet the
source keeps it because its floor is min(30, 40) = 30. -/
theorem c3_size_floor_cx :
    specSizeDiscard img2000 face35 ∧ face35 ∈ (filterBySize img2000 [face35]).1 := by
  constructor
  · unfold specSizeDiscard img2000 face35
    norm_num [max_def, min_def]
  · have h : (filterBySize img2000 [face35]).1 = [face35] := by
      simp only [filterBySize, img2000, face35]
      norm_num [min_def]
    rw [h]
    exact List.mem_singleton_self face35

/-- C3 (amended): a candidate survives the size stage exactly when its
width and height are at least min(30, 2 percent of min(W,H)), at most
80 percent of min(W,H), and its area is at most 25 percent of the image
area. -/
theorem c3_size_filter_characterization (img : Image) (faces : List Face) (f : Face) :
    f ∈ (filterBySize img faces).1 ↔
      f ∈ faces ∧
      ¬(((f.bbox.x2 - f.bbox.x1 : Int) : Rat) < min 30 (((min img.width img.height : Nat) : Rat) * (2/100)) ∨
        ((f.bbox.y2 - f.bbox.y1 : Int) : Rat) < min 30 (((min img.width img.height : Nat) : Rat) * (2/100)) ∨
        ((min img.width img.height : Nat) : Rat) * (8/10) < ((f.bbox.x2 - f.bbox.x1 : Int) : Rat) ∨
        ((min img.width img.height : Nat) : Rat) * (8/10) < ((f.bbox.y2 - f.bbox.y1 : Int) : Rat) ∨
        ((img.height * img.width : Nat) : Rat) * (25/100) <
          ((f.bbox.x2 - f.bbox.x1 : Int) : Rat) * ((f.bbox.y2 - f.bbox.y1 : Int) : Rat)) := by
  induction faces with
  | nil => simp [filterBySize]
  | cons g rest ih =>
    by_cases hg :
        ((g.bbox.x2 - g.bbox.x1 : Int) : Rat) < min 30 (((min img.width img.height : Nat) : Rat) * (2/100)) ∨
        ((g.bbox.y2 - g.bbox.y1 : Int) : Rat) < min 30 (((min img.width img.height : Nat) : Rat) * (2/100)) ∨
        ((min img.width img.height : Nat) : Rat) * (8/10) < ((g.bbox.x2 - g.bbox.x1 : Int) : Rat) ∨
        ((min img.width img.height : Nat) : Rat) * (8/10) < ((g.bbox.y2 - g.bbox.y1 : Int) : Rat) ∨
        ((img.height * img.width : Nat) : Rat) * (25/100) <
          ((g.bbox.x2 - g.bbox.x1 : Int) : Rat) * ((g.bbox.y2 - g.bbox.y1 : Int) : Rat)
    · rw [filterBySize, if_pos hg]
      constructor
      · intro hf
        exact ⟨List.mem_cons_of_mem g (ih.mp hf).1, (ih.mp hf).2⟩
      · rintro ⟨hmem, hcond⟩
        rcases List.mem_cons.mp hmem with heq | hmem2
        · exact absurd hg (heq ▸ hcond)
        · exact ih.mpr ⟨hmem2, hcond⟩
    · rw [filterBySize, if_neg hg]
      constructor
      · intro hf
        rcases List.mem_cons.mp hf with heq | hf2
        · exact ⟨heq ▸ List.mem_cons_self g rest, heq ▸ hg⟩
        · exact ⟨List.mem_cons_of_mem g (ih.mp hf2).1, (ih.mp hf2).2⟩
      · rintro ⟨hmem, hcond⟩
        rcases List.mem_cons.mp hmem with heq | hmem2
        · exact heq ▸ List.mem_cons_self g (filterBySize img rest).1
        · exact List.mem_cons_of_mem g (ih.mpr ⟨hmem2, hcond⟩)

/-- The edge condition of SmartFaceFilter._filter_by_position: the box
touches a margin of min(20, 5 percent of min(W,H)) around any edge. -/
def posEdgeCond (img : Image) (f : Face) : Bool :=
  let margin : Rat := min 20 (((min img.width img.height : Nat) : Rat) * (5/100))
  decide ((f.bbox.x1 : Rat) < margin ∨ (f.bbox.y1 : Rat) < margin ∨
    ((img.width : Rat) - margin) < (f.bbox.x2 : Rat) ∨
    ((img.height : Rat) - margin) < (f.bbox.y2 : Rat))

/-- The per-candidate effect of SmartFaceFilter._filter_by_position: a
candidate near an edge keeps its box but has confidence multiplied by
0.3 and its edge_detection flag set; every other candidate is returned
unchanged. -/
def posAdjust (img : Image) (f : Face) : Face :=
  if posEdgeCond img f then
    { f with confidence := f.confidence * (3/10), edge_detection := true }
  else f

/-- SmartFaceFilter._filter_by_position: every candidate is appended to
the output (nothing is ever discarded), after the per-candidate edge
adjustment. -/
def filterByPosition (img : Image) : List Face → List Face
  | [] => []
  | f :: rest => posAdjust img f :: filterByPosition img rest

/-- The claim's edge condition: a plain 5 percent margin with no 20 pixel
cap; kept for comparison against posEdgeCond. -/
def specWithin5pct (img : Image) (f : Face) : Bool :=
  let margin : Rat := ((min img.width img.height : Nat) : Rat) * (5/100)
  decide ((f.bbox.x1 : Rat) < margin ∨ (f.bbox.y1 : Rat) < margin ∨
    ((img.width : Rat) - margin) < (f.bbox.x2 : Rat) ∨
    ((img.height : Rat) - margin) < (f.bbox.y2 : Rat))

/-- A 1000 by 1000 test image. -/
def img1000 : Image := ⟨1000, 1000, fun _ => 0⟩

/-- A candidate whose left edge sits 30 pixels from the border of a
1000 by 1000 image: inside the claim's 50 pixel margin, outside the
source's capped 20 pixel margin. -/
def faceNearEdge : Face := ⟨⟨30, 100, 130, 200⟩, 1/2, none, none, false⟩

/-- A candidate 5 pixels from the border, adjusted by the source. -/
def faceAtEdge : Face := ⟨⟨5, 100, 105, 200⟩, 1/2, none, none, false⟩

/-- C8, counterexample: on a 1000 by 1000 image, faceNearEdge lies inside
the claim's 5 percent (50 pixel) margin yet the source leaves it fully
unchanged, because the source caps the margin at 20 pixels; and a
candidate the source does adjust also gets its edge_detection flag set,
so not all fields other than confidence are unchanged. -/
theorem c8_position_margin_cx :
    specWithin5pct img1000 faceNearEdge = true ∧
    posAdjust img1000 faceNearEdge = faceNearEdge ∧
    posAdjust img1000 faceAtEdge ≠
      { faceAtEdge with confidence := faceAtEdge.confidence * (3/10) } := by
  refine ⟨?_, ?_, ?_⟩
  · unfold specWithin5pct img1000 faceNearEdge
    norm_num [min_def]
  · have h : posEdgeCond img1000 faceNearEdge = false := by
      unfold posEdgeCond img1000 faceNearEdge
      norm_num [min_def]
    unfold posAdjust
    rw [h]
    simp
  · have h : posEdgeCond img1000 faceAtEdge = true := by
      unfold posEdgeCond img1000 faceAtEdge
      norm_num [min_def]
    unfold posAdjust
    rw [h]
    simp [faceAtEdge, Face.mk.injEq]

/-- C8 (amended): the position stage never discards a candidate: its
output is the input list mapped through the per-candidate adjustment,
which preserves the bounding box, multiplies confidence by 0.3 and sets
the edge_detection flag exactly when the box is within a
min(20, 5 percent of min(W,H)) margin of any edge, and otherwise
returns the candidate unchanged. -/
theorem c8_position_filter (img : Image) (faces : List Face) (f : Face) :
    filterByPosition img faces = faces.map (posAdjust img) ∧
    (posAdjust img f).bbox = f.bbox ∧
    (posEdgeCond img f = true →
      posAdjust img f =
        { f with confidence := f.confidence * (3/10), edge_detection := true }) ∧
    (posEdgeCond img f = false → posAdjust img f = f) := by
  refine ⟨?_, ?_, ?_, ?_⟩
  · induction faces with
    | nil => simp [filterByPosition]
    | cons g rest ih => simp [filterByPosition, ih]
  · unfold posAdjust
    split <;> rfl
  · intro h
    unfold posAdjust
    rw [h]
    simp
  · intro h
    unfold posAdjust
    rw [h]
    simp

/-- C8, witness: applying the amended theorem to the concrete edge
candidate of the counterexample image. -/
theorem c8_position_filter_witness :
    posEdgeCond img1000 faceAtEdge = true ∧
    posAdjust img1000 faceAtEdge =
      { faceAtEdge with confidence := faceAtEdge.confidence * (3/10), edge_detection := true } := by
  have hc : posEdgeCond img1000 faceAtEdge = true := by
    unfold posEdgeCond img1000 faceAtEdge
    norm_num [min_def]
  exact ⟨hc, (c8_position_filter img1000 [] faceAtEdge).2.2.1 hc⟩

/-! ## SinglePersonOptimizer (core/single_person_optimizer.py) -/

/-- Stable insertion into a list sorted in descending key order: the new
element passes over strictly greater keys and stops before the first key
it is greater than or equal to, matching the stability of Python's
list.sort with reverse set. -/
def insertDesc {α : Type} (key : α → Rat) (x : α) : List α → List α
  | [] => [x]
  | y :: ys => if key x < key y then y :: insertDesc key x ys else x :: y :: ys

/-- Stable descending sort by a rational key, as Python's sorted with
reverse set. -/
def sortDesc {α : Type} (key : α → Rat) : List α → List α
  | [] => []
  | x :: xs => insertDesc key x (sortDesc key xs)

theorem mem_insertDesc {α : Type} (key : α → Rat) (x a : α) (l : List α) :
    a ∈ insertDesc key x l ↔ a = x ∨ a ∈ l := by
  induction l with
  | nil => simp [insertDesc]
  | cons y ys ih =>
    unfold insertDesc
    split
    · simp only [List.mem_cons, ih]
      tauto
    · simp only [List.mem_cons]
      try tauto

theorem mem_sortDesc {α : Type} (key : α → Rat) (a : α) (l : List α) :
    a ∈ sortDesc key l ↔ a ∈ l := by
  induction l with
  | nil => simp [sortDesc]
  | cons x xs ih =>
    unfold sortDesc
    rw [mem_insertDesc, ih, List.mem_cons]

theorem length_insertDesc {α : Type} (key : α → Rat) (x : α) (l : List α) :
    (insertDesc key x l).length = l.length + 1 := by
  induction l with
  | nil => rfl
  | cons y ys ih =>
    unfold insertDesc
    split
    · simp [ih]
    · simp

theorem length_sortDesc {α : Type} (key : α → Rat) (l : List α) :
    (sortDesc key l).length = l.length := by
  induction l with
  | nil => rfl
  | cons x xs ih =>
    unfold sortDesc
    rw [length_insertDesc, ih, List.length_cons]

/-- Face area as computed by SinglePersonOptimizer._get_face_area. -/
def getFaceArea (f : Face) : Rat :=
  ((f.bbox.x2 - f.bbox.x1) * (f.bbox.y2 - f.bbox.y1) : Int)

/-- SinglePersonOptimizer._calculate_single_person_score: quality
(at most 40), confidence (20 times), relative size (at most 20),
centering (at most 10, via the square root of the normalized squared
distance from the image center, supplied as the oracle sqrtQ), and
aspect closeness (at most 10). -/
def calculateSinglePersonScore (sqrtQ : Rat → Rat) (img : Image) (f : Face) : Rat :=
  let rq := f.region_quality.getD 50
  let conf := f.confidence
  let s1 := min 40 (rq * (4/10))
  let s2 := conf * 20
  let faceArea := getFaceArea f
  let imageArea : Rat := ((img.height * img.width : Nat) : Rat)
  let areaFrac := faceArea / imageArea
  let s3 : Rat :=
    if 5/100 ≤ areaFrac ∧ areaFrac ≤ 30/100 then 20
    else if 3/100 ≤ areaFrac ∧ areaFrac ≤ 50/100 then 15
    else if 50/100 < areaFrac then 5
    else 2
  let cx : Rat := ((f.bbox.x1 + f.bbox.x2 : Int) : Rat) / 2
  let cy : Rat := ((f.bbox.y1 + f.bbox.y2 : Int) : Rat) / 2
  let w : Rat := (img.width : Rat)
  let h : Rat := (img.height : Rat)
  let centerDistance := sqrtQ (((cx - w/2) / w)^2 + ((cy - h/2) / h)^2)
  let s4 := max 0 (10 * (1 - centerDistance * 2))
  let fw : Rat := ((f.bbox.x2 - f.bbox.x1 : Int) : Rat)
  let fh : Rat := ((f.bbox.y2 - f.bbox.y1 : Int) : Rat)
  let aspect := if 0 < fh then fw / fh else 0
  let s5 : Rat :=
    if 8/10 ≤ aspect ∧ aspect ≤ 12/10 then 10
    else if 6/10 ≤ aspect ∧ aspect ≤ 14/10 then 7
    else 2
  s1 + s2 + s3 + s4 + s5

/-- SinglePersonOptimizer._select_best_single_face on the
descending-sorted (score, face) list: accept the head only when its
score is at least 60, its region_quality (defaulting to 0 when the key
is absent) is at least 40 and its confidence is at least 0.2; when the
gap to the runner-up is below 15 and the runner-up is at least 1.5 times
larger, the runner-up is preferred. -/
def selectBestSingleFace : List (Rat × Face) → Option Face
  | [] => none
  | (bestScore, bestFace) :: rest =>
    if 60 ≤ bestScore ∧ 40 ≤ bestFace.region_quality.getD 0 ∧
        (2/10 : Rat) ≤ bestFace.confidence then
      match rest with
      | (secondScore, secondFace) :: _ =>
        if bestScore - secondScore < 15 then
          if getFaceArea bestFace * (3/2) < getFaceArea secondFace then some secondFace
          else some bestFace
        else some bestFace
      | [] => some bestFace
    else none

/-- Steps 2 to 5 of SinglePersonOptimizer.optimize_for_single_person:
score every candidate, sort descending by score, and run the strict
single-face selection, yielding a singleton or the empty list. -/
def singleScoringPath (sqrtQ : Rat → Rat) (img : Image) (faces : List Face) : List Face :=
  let scored := faces.map (fun f => (calculateSinglePersonScore sqrtQ img f, f))
  match selectBestSingleFace (sortDesc (fun p => p.1) scored) with
  | some b => [b]
  | none => []

/-- SinglePersonOptimizer.optimize_for_single_person: empty input is
returned as is; a sole candidate whose region_quality (defaulting to 50
when the key is absent) exceeds 30 and whose confidence exceeds 0.3 is
accepted unchanged; every other input goes through the scoring path. -/
def optimizeForSinglePerson (sqrtQ : Rat → Rat) (img : Image) (faces : List Face) : List Face :=
  match faces with
  | [] => []
  | [f] =>
    if 30 < f.region_quality.getD 50 ∧ (3/10 : Rat) < f.confidence then [f]
    else singleScoringPath sqrtQ img [f]
  | _ => singleScoringPath sqrtQ img faces

theorem singleScoringPath_eq_nil_of_no_region_quality
    (sqrtQ : Rat → Rat) (img : Image) (faces : List Face)
    (hne : faces ≠ [])
    (hrq : ∀ g ∈ faces, g.region_quality = none) :
    singleScoringPath sqrtQ img faces = [] := by
  simp only [singleScoringPath]
  rcases hs : sortDesc (fun p => p.1)
      (faces.map (fun f => (calculateSinglePersonScore sqrtQ img f, f))) with _ | ⟨⟨s, b⟩, rest⟩
  · exfalso
    have hlen := length_sortDesc (fun p : Rat × Face => p.1)
      (faces.map (fun f => (calculateSinglePersonScore sqrtQ img f, f)))
    rw [hs] at hlen
    simp only [List.length_nil, List.length_map] at hlen
    exact hne (List.length_eq_zero.mp hlen.symm)
  · have hb : (s, b) ∈ sortDesc (fun p : Rat × Face => p.1)
        (faces.map (fun f => (calculateSinglePersonScore sqrtQ img f, f))) := by
      rw [hs]; exact List.mem_cons_self _ _
    rw [mem_sortDesc] at hb
    obtain ⟨g, hg, hgb⟩ := List.mem_map.mp hb
    have hbrq : b.region_quality = none := by
      have : g = b := congrArg Prod.snd hgb
      exact this ▸ hrq g hg
    rw [hs]
    simp only [selectBestSingleFace, hbrq, Option.getD_none]
    rw [if_neg]
    · intro hcontra
      exact absurd hcontra.2.1 (by norm_num)

/-- C6: the single-person resolver accepts a sole candidate unchanged
when its region_quality (present) exceeds 30 and its confidence exceeds
0.3; on the scoring path the top-scored candidate is accepted only when
its total score is at least 60, its region_quality is at least 40 and
its confidence is at least 0.2 (otherwise the resolver yields the empty
list), subject to the runner-up tie-break when the score gap is below 15
and the runner-up is at least 1.5 times larger. -/
theorem c6_single_resolver (sqrtQ : Rat → Rat) (img : Image) (f : Face)
    (faces : List Face) (s s2 : Rat) (b b2 : Face) (rest : List (Rat × Face)) :
    (30 < f.region_quality.getD 50 → (3/10 : Rat) < f.confidence →
      optimizeForSinglePerson sqrtQ img [f] = [f]) ∧
    (¬(60 ≤ s ∧ 40 ≤ b.region_quality.getD 0 ∧ (2/10 : Rat) ≤ b.confidence) →
      selectBestSingleFace ((s, b) :: rest) = none) ∧
    ((60 ≤ s ∧ 40 ≤ b.region_quality.getD 0 ∧ (2/10 : Rat) ≤ b.confidence) →
      selectBestSingleFace [(s, b)] = some b) ∧
    ((60 ≤ s ∧ 40 ≤ b.region_quality.getD 0 ∧ (2/10 : Rat) ≤ b.confidence) →
      selectBestSingleFace ((s, b) :: (s2, b2) :: rest) =
        if s - s2 < 15 ∧ getFaceArea b * (3/2) < getFaceArea b2 then some b2
        else some b) ∧
    (2 ≤ faces.length →
      optimizeForSinglePerson sqrtQ img faces = singleScoringPath sqrtQ img faces) := by
  refine ⟨?_, ?_, ?_, ?_, ?_⟩
  · intro hrq hconf
    simp only [optimizeForSinglePerson]
    rw [if_pos ⟨hrq, hconf⟩]
  · intro h
    simp only [selectBestSingleFace]
    rw [if_neg h]
  · intro h
    simp only [selectBestSingleFace]
    rw [if_pos h]
  · intro h
    simp only [selectBestSingleFace]
    rw [if_pos h]
    split_ifs with h1 h2 h3 h4 <;> first | rfl | tauto
  · intro hlen
    rcases faces with _ | ⟨a, _ | ⟨c, t⟩⟩
    · simp at hlen
    · simp at hlen
    · rfl

/-- A sole candidate carrying region_quality 45 and confidence 0.5. -/
def faceSingle45 : Face := ⟨⟨10, 10, 60, 60⟩, 1/2, some 45, none, false⟩

/-- C6, witness: a sole candidate with region_quality 45 and confidence
0.5 is accepted unchanged. -/
theorem c6_single_resolver_witness :
    optimizeForSinglePerson (fun _ => 0) img1000 [faceSingle45] = [faceSingle45] :=
  (c6_single_resolver (fun _ => 0) img1000 faceSingle45 [] 0 0 faceSingle45 faceSingle45 []).1
    (by norm_num [faceSingle45]) (by norm_num [faceSingle45])

/-- C10: region_quality is read asymmetrically: the single-candidate
quick accept defaults a missing key to 50, so a lone candidate without
the key and with confidence above 0.3 is accepted unchanged; the final
acceptance check defaults it to 0, so any list in which no candidate
carries the key and that reaches the scoring path (length at least two,
or a lone candidate with confidence at most 0.3) is always rejected. -/
theorem c10_region_quality_defaults (sqrtQ : Rat → Rat) (img : Image)
    (f : Face) (faces : List Face) :
    (f.region_quality = none → (3/10 : Rat) < f.confidence →
      optimizeForSinglePerson sqrtQ img [f] = [f]) ∧
    ((∀ g ∈ faces, g.region_quality = none) →
      (2 ≤ faces.length ∨ (faces = [f] ∧ f.confidence ≤ 3/10)) →
      optimizeForSinglePerson sqrtQ img faces = []) := by
  constructor
  · intro hrq hconf
    simp only [optimizeForSinglePerson]
    rw [if_pos ⟨by rw [hrq]; norm_num, hconf⟩]
  · intro hrq hpath
    rcases hpath with hlen | ⟨hfs, hconf⟩
    · rcases faces with _ | ⟨a, _ | ⟨c, t⟩⟩
      · simp at hlen
      · simp at hlen
      · show singleScoringPath sqrtQ img (a :: c :: t) = []
        exact singleScoringPath_eq_nil_of_no_region_quality sqrtQ img _ (by simp) hrq
    · subst hfs
      simp only [optimizeForSinglePerson]
      rw [if_neg]
      · exact singleScoringPath_eq_nil_of_no_region_quality sqrtQ img [f] (by simp) hrq
      · rintro ⟨-, hc⟩
        exact absurd hc (not_lt.mpr hconf)

/-- A candidate without the region_quality key, confidence 0.5. -/
def faceNoRq : Face := ⟨⟨100, 100, 300, 300⟩, 1/2, none, none, false⟩

/-- A second candidate without the region_quality key, confidence 0.4. -/
def faceNoRq2 : Face := ⟨⟨400, 100, 600, 300⟩, 2/5, none, none, false⟩

/-- C10, witness: a lone key-less candidate with confidence 0.5 is
accepted unchanged, while a two-candidate key-less list is rejected. -/
theorem c10_region_quality_defaults_witness :
    optimizeForSinglePerson (fun _ => 0) img1000 [faceNoRq] = [faceNoRq] ∧
    optimizeForSinglePerson (fun _ => 0) img1000 [faceNoRq, faceNoRq2] = [] := by
  constructor
  · exact (c10_region_quality_defaults (fun _ => 0) img1000 faceNoRq [faceNoRq]).1
      rfl (by norm_num [faceNoRq])
  · exact (c10_region_quality_defaults (fun _ => 0) img1000 faceNoRq
      [faceNoRq, faceNoRq2]).2
      (by intro g hg
          simp only [List.mem_cons, List.not_mem_nil, or_false] at hg
          rcases hg with h | h <;> subst h <;> rfl)
      (Or.inl (by simp))

/-! ## ImageEnhancer.assess_image_quality (core/image_enhancer.py) -/

/-- The numeric-library computations assess_image_quality performs on one
image, each of which may raise: the grayscale conversion (caught by the
top-level handler) and the four raw statistics (each caught inside its
own sub-score helper). -/
structure QualityProbe where
  gray : Except Unit Unit
  lapVar : Except Unit Rat
  lapStd : Except Unit Rat
  stdGray : Except Unit Rat
  meanGray : Except Unit Rat

/-- ImageEnhancer._calculate_blur_score: min(100, laplacian variance / 10),
defaulting to 50 when the computation raises. -/
def calculateBlurScore (p : QualityProbe) : Rat :=
  match p.lapVar with
  | .ok v => min 100 (v / 10)
  | .error _ => 50

/-- ImageEnhancer._calculate_noise_score: max(0, 100 - laplacian std / 2),
defaulting to 50 when the computation raises. -/
def calculateNoiseScore (p : QualityProbe) : Rat :=
  match p.lapStd with
  | .ok v => max 0 (100 - v / 2)
  | .error _ => 50

/-- ImageEnhancer._calculate_contrast_score: min(100, grayscale std / 2),
defaulting to 50 when the computation raises. -/
def calculateContrastScore (p : QualityProbe) : Rat :=
  match p.stdGray with
  | .ok v => min 100 (v / 2)
  | .error _ => 50

/-- ImageEnhancer._calculate_brightness_score:
max(0, 100 - abs(mean - 125) / 2), defaulting to 50 when the computation
raises. -/
def calculateBrightnessScore (p : QualityProbe) : Rat :=
  match p.meanGray with
  | .ok v => max 0 (100 - |v - 125| / 2)
  | .error _ => 50

/-- ImageEnhancer.assess_image_quality: 50 when the top-level body raises
(the grayscale conversion), otherwise the weighted sub-score sum clamped
into the range 0 to 100. -/
def assessImageQuality (p : QualityProbe) : Rat :=
  match p.gray with
  | .error _ => 50
  | .ok _ =>
    let quality := calculateBlurScore p * (3/10) + calculateNoiseScore p * (25/100) +
      calculateContrastScore p * (25/100) + calculateBrightnessScore p * (2/10)
    min 100 (max 0 quality)

/-- A probe on which only the Laplacian-variance computation (the blur
sub-metric) raises, while the other statistics are perfect. -/
def probeBlurFails : QualityProbe :=
  ⟨.ok (), .error (), .ok 0, .ok 200, .ok 125⟩

/-- C7, counterexample: when the blur sub-metric's internal computation
fails but the rest succeed, the assessor does not return 50: the failed
sub-score alone defaults to 50 and the composite is its clamped weighted
sum, here 85. -/
theorem c7_internal_failure_cx :
    probeBlurFails.lapVar = Except.error () ∧
    assessImageQuality probeBlurFails = 85 := by
  constructor
  · rfl
  · simp only [assessImageQuality, probeBlurFails, calculateBlurScore,
      calculateNoiseScore, calculateContrastScore, calculateBrightnessScore]
    norm_num [min_def, max_def]

/-- C7 (amended): the assessor is total, its composite always lies in the
range 0 to 100, it returns exactly 50 when the top-level computation
(the grayscale conversion) fails, and otherwise returns the clamped
weighted sum 0.3 blur + 0.25 noise + 0.25 contrast + 0.2 brightness of
the four sub-scores, where a failing sub-metric contributes the neutral
sub-score 50 instead of forcing the composite to 50. -/
theorem c7_quality_composite (p : QualityProbe) :
    (0 ≤ assessImageQuality p ∧ assessImageQuality p ≤ 100) ∧
    (p.gray = Except.error () → assessImageQuality p = 50) ∧
    (p.gray = Except.ok () → assessImageQuality p =
      min 100 (max 0 (calculateBlurScore p * (3/10) + calculateNoiseScore p * (25/100) +
        calculateContrastScore p * (25/100) + calculateBrightnessScore p * (2/10)))) := by
  refine ⟨?_, ?_, ?_⟩
  · unfold assessImageQuality
    rcases p.gray with u | u
    · constructor <;> norm_num
    · constructor
      · exact le_min (by norm_num) (le_max_left 0 _)
      · exact min_le_left 100 _
  · intro h
    unfold assessImageQuality
    rw [h]
  · intro h
    unfold assessImageQuality
    rw [h]

/-- C7, witness: a probe whose grayscale conversion fails is assessed at
exactly 50, and every assessed value is within bounds. -/
theorem c7_quality_composite_witness :
    assessImageQuality ⟨Except.error (), Except.ok 0, Except.ok 0, Except.ok 0, Except.ok 0⟩ = 50 :=
  (c7_quality_composite ⟨Except.error (), Except.ok 0, Except.ok 0, Except.ok 0, Except.ok 0⟩).2.1 rfl

/-! ## AdaptiveFaceDetector (core/adaptive_detector.py) -/

/-- The detection tiers of the adaptive detector. -/
inductive Tier
  | fast
  | accurate
  | enhancedAccurate
  | progressive
deriving DecidableEq

/-- The backend identifiers used by _select_yolo_tier and
_progressive_yolo_detection: the primary (fast) model, the secondary
(accurate) model, and the OpenCV Haar fallback. -/
inductive YoloModel
  | primary
  | secondary
  | haar
deriving DecidableEq

/-- The tier routing of _select_yolo_tier as a pure function of the
quality score, with the thresholds excellent 85, good 60, acceptable 30
of AdaptiveFaceDetector.quality_thresholds. -/
def selectTier (q : Rat) : Tier :=
  if 85 ≤ q then .fast
  else if 60 ≤ q then .accurate
  else if 30 ≤ q then .enhancedAccurate
  else .progressive

/-- The loop body of _progressive_yolo_detection: walk the prepared
(model, image) pairs; a raised detection is caught and skipped; a result
larger than the best so far replaces it, and a non-empty result breaks
out of the loop immediately. -/
def progressiveLoop {Img : Type} (detect : YoloModel → Img → Except Unit (List Face)) :
    List (YoloModel × Img) → List Face → Nat → List Face
  | [], bestFaces, _ => bestFaces
  | (m, im) :: rest, bestFaces, bestCount =>
    match detect m im with
    | .error _ => progressiveLoop detect rest bestFaces bestCount
    | .ok faces =>
      if bestCount < faces.length then
        if 0 < faces.length then faces
        else progressiveLoop detect rest faces faces.length
      else progressiveLoop detect rest bestFaces bestCount

/-- The ordered (model, image) pairs _progressive_yolo_detection tries:
primary on the raw image, secondary on the raw image, secondary on the
enhanced image, Haar fallback on the raw image. -/
def progressiveMethods {Img : Type} (enhance : Img → Rat → Img) (img : Img) (q : Rat) :
    List (YoloModel × Img) :=
  [(.primary, img), (.secondary, img), (.secondary, enhance img q), (.haar, img)]

/-- _progressive_yolo_detection: run the loop over the prepared method
list starting from an empty best result. -/
def progressiveYoloDetection {Img : Type} (detect : YoloModel → Img → Except Unit (List Face))
    (enhance : Img → Rat → Img) (img : Img) (q : Rat) : List Face :=
  progressiveLoop detect (progressiveMethods enhance img q) [] 0

/-- The outcome of one (model, image) attempt with the exception treated
as zero candidates. -/
def effectiveResult {Img : Type} (detect : YoloModel → Img → Except Unit (List Face))
    (mi : YoloModel × Img) : List Face :=
  match detect mi.1 mi.2 with
  | .ok faces => faces
  | .error _ => []

/-- The policy the claim asserts, modelled from its wording: scan every
(model, image) pair and keep the largest non-empty result seen; kept for
comparison against progressiveYoloDetection. -/
def bestOfAllDetection {Img : Type} (detect : YoloModel → Img → Except Unit (List Face))
    (enhance : Img → Rat → Img) (img : Img) (q : Rat) : List Face :=
  ((progressiveMethods enhance img q).map (effectiveResult detect)).foldl
    (fun best r => if best.length < r.length then r else best) []

/-- Three distinct concrete faces used by the progressive counterexample. -/
def faceP1 : Face := ⟨⟨0, 0, 50, 50⟩, 9/10, none, none, false⟩

/-- Second concrete face for the progressive counterexample. -/
def faceP2 : Face := ⟨⟨100, 0, 150, 50⟩, 8/10, none, none, false⟩

/-- Third concrete face for the progressive counterexample. -/
def faceP3 : Face := ⟨⟨200, 0, 250, 50⟩, 7/10, none, none, false⟩

/-- A backend assignment where the fast model finds one face and the
accurate model finds two. -/
def detectOneThenTwo : YoloModel → Unit → Except Unit (List Face)
  | .primary, _ => .ok [faceP1]
  | .secondary, _ => .ok [faceP2, faceP3]
  | .haar, _ => .ok []

/-- C2, counterexample: with a backend where the first pair yields one
face and the second pair yields two, the source returns the first
non-empty result (one face), not the largest result over all pairs (two
faces): the default policy implemented is greedy-stop-on-first-non-empty,
not best-of-all. -/
theorem c2_progressive_policy_cx :
    progressiveYoloDetection detectOneThenTwo (fun i _ => i) () 10 = [faceP1] ∧
    bestOfAllDetection detectOneThenTwo (fun i _ => i) () 10 = [faceP2, faceP3] ∧
    ([faceP1] : List Face) ≠ [faceP2, faceP3] := by
  refine ⟨rfl, rfl, by simp [faceP1, faceP2]⟩

/-- C2 (amended): the Progressive tier iterates the ordered pairs
(fast, raw), (accurate, raw), (accurate, enhanced), (fallback, raw),
treats a backend exception as zero candidates and continues, and returns
the FIRST non-empty result in that order (greedy-stop), or the empty
list when every pair yields no candidates. -/
theorem c2_progressive_first_nonempty {Img : Type}
    (detect : YoloModel → Img → Except Unit (List Face))
    (enhance : Img → Rat → Img) (img : Img) (q : Rat) :
    progressiveYoloDetection detect enhance img q =
      ((((progressiveMethods enhance img q).map (effectiveResult detect)).find?
        (fun r => !r.isEmpty)).getD []) := by
  unfold progressiveYoloDetection
  generalize progressiveMethods enhance img q = ms
  induction ms with
  | nil => rfl
  | cons mi rest ih =>
    obtain ⟨m, im⟩ := mi
    simp only [progressiveLoop, List.map_cons, List.find?_cons, effectiveResult]
    rcases hd : detect m im with e | faces
    · simpa using ih
    · rcases hf : faces with _ | ⟨f0, frest⟩
      · simpa using ih
      · simp

/-- _select_yolo_tier with its detection calls: the fast tier runs the
primary model on the raw image, the accurate tier the secondary model on
the raw image, the enhanced-accurate tier the secondary model on the
enhanced image, and the progressive tier the progressive fallback
sequence (which never raises); exceptions of the three direct tiers
propagate to the caller. -/
def selectYoloTier {Img : Type} (detect : YoloModel → Img → Except Unit (List Face))
    (enhance : Img → Rat → Img) (img : Img) (q : Rat) : Except Unit (Tier × List Face) :=
  if 85 ≤ q then (detect .primary img).map (fun faces => (Tier.fast, faces))
  else if 60 ≤ q then (detect .secondary img).map (fun faces => (Tier.accurate, faces))
  else if 30 ≤ q then
    (detect .secondary (enhance img q)).map (fun faces => (Tier.enhancedAccurate, faces))
  else .ok (Tier.progressive, progressiveYoloDetection detect enhance img q)

/-- C4: tier routing is a total function of the quality score whose four
ranges are contiguous, non-overlapping and cover every score: at least
85 is Fast, 60 to below 85 is Accurate, 30 to below 60 is
EnhancedAccurate (which detects on the enhanced image), and below 30 is
Progressive. -/
theorem c4_tier_selection (q : Rat) :
    (selectTier q = Tier.fast ↔ 85 ≤ q) ∧
    (selectTier q = Tier.accurate ↔ 60 ≤ q ∧ q < 85) ∧
    (selectTier q = Tier.enhancedAccurate ↔ 30 ≤ q ∧ q < 60) ∧
    (selectTier q = Tier.progressive ↔ q < 30) ∧
    (∀ (Img : Type) (detect : YoloModel → Img → Except Unit (List Face))
      (enhance : Img → Rat → Img) (img : Img),
      selectTier q = Tier.enhancedAccurate →
        selectYoloTier detect enhance img q =
          (detect .secondary (enhance img q)).map
            (fun faces => (Tier.enhancedAccurate, faces))) := by
  have hfast : selectTier q = Tier.fast ↔ 85 ≤ q := by
    constructor
    · intro h
      unfold selectTier at h
      split_ifs at h with h1 h2 h3
      exact h1
    · intro h
      unfold selectTier
      rw [if_pos h]
  have hacc : selectTier q = Tier.accurate ↔ 60 ≤ q ∧ q < 85 := by
    constructor
    · intro h
      unfold selectTier at h
      split_ifs at h with h1 h2 h3
      exact ⟨h2, not_le.mp h1⟩
    · rintro ⟨h60, h85⟩
      unfold selectTier
      rw [if_neg (not_le.mpr h85), if_pos h60]
  have henh : selectTier q = Tier.enhancedAccurate ↔ 30 ≤ q ∧ q < 60 := by
    constructor
    · intro h
      unfold selectTier at h
      split_ifs at h with h1 h2 h3
      exact ⟨h3, not_le.mp h2⟩
    · rintro ⟨h30, h60⟩
      unfold selectTier
      rw [if_neg (not_le.mpr (by linarith)), if_neg (not_le.mpr h60), if_pos h30]
  have hprog : selectTier q = Tier.progressive ↔ q < 30 := by
    constructor
    · intro h
      unfold selectTier at h
      split_ifs at h with h1 h2 h3
      exact not_le.mp h3
    · intro h30
      unfold selectTier
      rw [if_neg (not_le.mpr (by linarith)), if_neg (not_le.mpr (by linarith)),
        if_neg (not_le.mpr h30)]
  refine ⟨hfast, hacc, henh, hprog, ?_⟩
  intro Img detect enhance img hsel
  obtain ⟨h30, h60⟩ := henh.mp hsel
  unfold selectYoloTier
  rw [if_neg (not_le.mpr (by linarith)), if_neg (not_le.mpr h60), if_pos h30]

/-- A backend that always succeeds with no faces, for the tier witness. -/
def detectEmptyOk : YoloModel → Unit → Except Unit (List Face) := fun _ _ => .ok []

/-- C4, witness: quality 45 selects the EnhancedAccurate tier and runs
the secondary model on the enhanced image. -/
theorem c4_tier_selection_witness :
    selectTier 45 = Tier.enhancedAccurate ∧
    selectYoloTier detectEmptyOk (fun i _ => i) () 45 =
      Except.ok (Tier.enhancedAccurate, []) := by
  have hsel : selectTier 45 = Tier.enhancedAccurate := by
    unfold selectTier
    norm_num
  refine ⟨hsel, ?_⟩
  rw [(c4_tier_selection 45).2.2.2.2 Unit detectEmptyOk (fun i _ => i) () hsel]
  rfl

/-! ## IntelligentFaceDetector (core/intelligent_face_detector.py) -/

/-- The fixed catalog of detection strategies. -/
inductive Strategy
  | conservative
  | balanced
  | aggressive
deriving DecidableEq

/-- The overlap threshold of each strategy: 0.3, 0.4, 0.5. -/
def Strategy.overlapThreshold : Strategy → Rat
  | .conservative => 3/10
  | .balanced => 4/10
  | .aggressive => 5/10

/-- The quality threshold of each strategy: 20, 15, 10. -/
def Strategy.qualityThreshold : Strategy → Rat
  | .conservative => 20
  | .balanced => 15
  | .aggressive => 10

/-- IntelligentFaceDetector._initial_quality_filter: drop candidates with
a degenerate box, a side below 25 pixels, an area above 60 percent of the
image, or an aspect outside 0.3 to 3. -/
def initialQualityFilter (img : Image) : List Face → List Face
  | [] => []
  | f :: rest =>
    if f.bbox.x2 ≤ f.bbox.x1 ∨ f.bbox.y2 ≤ f.bbox.y1 then initialQualityFilter img rest
    else
      let w := f.bbox.x2 - f.bbox.x1
      let h := f.bbox.y2 - f.bbox.y1
      if w < 25 ∨ h < 25 then initialQualityFilter img rest
      else if ((img.height * img.width : Nat) : Rat) * (6/10) < ((w * h : Int) : Rat) then
        initialQualityFilter img rest
      else
        let aspect : Rat := if 0 < h then ((w : Int) : Rat) / ((h : Int) : Rat) else 0
        if aspect < 3/10 ∨ 3 < aspect then initialQualityFilter img rest
        else f :: initialQualityFilter img rest

/-- The sort key of _remove_overlapping_faces:
strategy_quality (default 0) times 0.6 plus confidence times 0.4. -/
def overlapKey (f : Face) : Rat :=
  f.strategy_quality.getD 0 * (6/10) + f.confidence * (4/10)

/-- The greedy loop of _remove_overlapping_faces: keep a candidate unless
its IoU with some already-kept candidate exceeds the threshold. -/
def removeOverlappingLoop (t : Rat) : List Face → List Face → List Face
  | [], kept => kept
  | f :: rest, kept =>
    if kept.any (fun k => decide (t < iou f.bbox k.bbox)) then
      removeOverlappingLoop t rest kept
    else removeOverlappingLoop t rest (kept ++ [f])

/-- IntelligentFaceDetector._remove_overlapping_faces: lists of at most
one face pass through; otherwise sort by quality and confidence
descending and greedily keep non-overlapping candidates. -/
def removeOverlappingFaces (t : Rat) (faces : List Face) : List Face :=
  if faces.length ≤ 1 then faces
  else removeOverlappingLoop t (sortDesc overlapKey faces) []

/-- The result record of _test_detection_strategy: surviving faces,
average quality over all incoming faces, and the consistency score
(average minus standard deviation). -/
structure StratResult where
  faces : List Face
  avg_quality : Rat
  consistency_score : Rat

/-- IntelligentFaceDetector._test_detection_strategy: tag every face with
its region quality, filter by the strategy's quality threshold, remove
overlaps at the strategy's overlap threshold, and compute the average
quality and the consistency score over the qualities of all incoming
faces.  The standard deviation (numpy std, a square root) is supplied as
the oracle qstd and is only consulted for two or more faces. -/
def testDetectionStrategy (qstd : List Rat → Rat) (img : Image) (s : Strategy)
    (faces : List Face) : StratResult :=
  let tagged := faces.map (fun f => { f with strategy_quality := some (img.rq f.bbox) })
  let quals := faces.map (fun f => img.rq f.bbox)
  let qualityFiltered := tagged.filter
    (fun f => decide (s.qualityThreshold ≤ f.strategy_quality.getD 0))
  let nonOverlapping := removeOverlappingFaces s.overlapThreshold qualityFiltered
  if quals = [] then ⟨nonOverlapping, 0, 0⟩
  else
    let avg := quals.sum / (quals.length : Rat)
    let sd := if 1 < quals.length then qstd quals else 0
    ⟨nonOverlapping, avg, avg - sd⟩

/-- The coarse scene classification values of _analyze_image_context. -/
inductive SceneKind
  | portrait
  | group
  | classroom
  | pair
  | general
deriving DecidableEq

/-- The image context computed by _analyze_image_context: aspect, area,
and the likely scene derived from the pre-strategy candidate count. -/
structure ImageContext where
  aspect : Rat
  area : Nat
  likely : SceneKind

/-- IntelligentFaceDetector._analyze_image_context. -/
def analyzeImageContext (img : Image) (faces : List Face) : ImageContext :=
  let aspect : Rat := (img.width : Rat) / (img.height : Rat)
  let area := img.height * img.width
  let n := faces.length
  let likely :=
    if 7/10 < aspect ∧ aspect < 13/10 ∧ n ≤ 2 then SceneKind.portrait
    else if 13/10 < aspect ∧ 3 ≤ n then SceneKind.group
    else if 1000000 < area ∧ 5 ≤ n then SceneKind.classroom
    else if n = 2 then SceneKind.pair
    else SceneKind.general
  ⟨aspect, area, likely⟩

/-- The per-strategy score accumulation of _choose_optimal_strategy,
in the source's order: consistency times 0.4, then the scene bonus,
then the over-detection penalty, then the quality bonus. -/
def strategyScore (ctx : ImageContext) (res : StratResult) : Rat :=
  let n := res.faces.length
  let s0 : Rat := 0
  let s1 := s0 + res.consistency_score * (4/10)
  let s2 :=
    if ctx.likely = SceneKind.portrait ∧ n = 1 then s1 + 30
    else if ctx.likely = SceneKind.group ∧ 2 ≤ n then s1 + 20
    else if ctx.likely = SceneKind.classroom ∧ 3 ≤ n then s1 + 25
    else s1
  let expectedMaxFaces := max 1 (ctx.area / 50000)
  let s3 := if expectedMaxFaces * 2 < n then s2 - 15 else s2
  if 60 < res.avg_quality then s3 + 10
  else if 40 < res.avg_quality then s3 + 5
  else s3

/-- IntelligentFaceDetector._choose_optimal_strategy: score the three
strategies against the image context and return the first
highest-scoring one (in the order conservative, balanced, aggressive,
matching Python's max over the strategy dict) together with its faces. -/
def chooseOptimalStrategy (img : Image) (original : List Face)
    (results : Strategy → StratResult) : Strategy × List Face :=
  let ctx := analyzeImageContext img original
  let m1 := Strategy.conservative
  let m2 := if strategyScore ctx (results m1) < strategyScore ctx (results .balanced)
    then Strategy.balanced else m1
  let best := if strategyScore ctx (results m2) < strategyScore ctx (results .aggressive)
    then Strategy.aggressive else m2
  (best, (results best).faces)

/-- The per-face confidence adjustment of _adjust_final_confidence:
confidence is scaled by half plus half the face's quality relative to the
maximum, capped at 0.99; the box and other fields are untouched. -/
def adjustOne (maxQuality : Rat) (f : Face) : Face :=
  let fq := f.strategy_quality.getD 50
  let rel := if 0 < maxQuality then fq / maxQuality else 1
  { f with confidence := min (99/100) (f.confidence * (1/2 + 1/2 * rel)) }

/-- IntelligentFaceDetector._adjust_final_confidence: lists of at most
one face are returned as is; otherwise every face's confidence is scaled
relative to the best strategy_quality (default 50). -/
def adjustFinalConfidence (faces : List Face) : List Face :=
  if faces.length ≤ 1 then faces
  else
    let quals := faces.map (fun f => f.strategy_quality.getD 50)
    let maxQuality := match quals.max? with
      | some m => m
      | none => 50
    faces.map (adjustOne maxQuality)

/-- The main path of IntelligentFaceDetector.detect_optimal_faces (after
the empty-input early return): initial quality filter, per-strategy
testing, context-based strategy choice, final confidence adjustment;
returns the winning strategy together with the final face list. -/
def detectOptimalFacesFull (qstd : List Rat → Rat) (img : Image)
    (raw : List Face) : Strategy × List Face :=
  let qualityFiltered := initialQualityFilter img raw
  let results := fun s => testDetectionStrategy qstd img s qualityFiltered
  let chosen := chooseOptimalStrategy img qualityFiltered results
  (chosen.1, adjustFinalConfidence chosen.2)

/-- IntelligentFaceDetector.detect_optimal_faces: empty raw input is
returned immediately, otherwise the main path's final face list. -/
def detectOptimalFaces (qstd : List Rat → Rat) (img : Image) (raw : List Face) : List Face :=
  if raw = [] then raw else (detectOptimalFacesFull qstd img raw).2

/-- AdaptiveFaceDetector.detect_faces_adaptive for a fixed set of
collaborators: assess quality, select and run the tier, then apply the
intelligent filtering; toImage maps the pixel buffer to the dimensions
and region-quality oracle the filters consult. -/
def detectFacesAdaptive {Img : Type} (detect : YoloModel → Img → Except Unit (List Face))
    (enhance : Img → Rat → Img) (assess : Img → Rat) (toImage : Img → Image)
    (qstd : List Rat → Rat) (img : Img) : Except Unit (List Face) :=
  let q := assess img
  (selectYoloTier detect enhance img q).map
    (fun tr => detectOptimalFaces qstd (toImage img) tr.2)

theorem removeOverlappingLoop_pairwise (t : Rat) (pending : List Face) :
    ∀ kept : List Face, kept.Pairwise (fun a b => iou a.bbox b.bbox ≤ t) →
      (removeOverlappingLoop t pending kept).Pairwise (fun a b => iou a.bbox b.bbox ≤ t) := by
  induction pending with
  | nil =>
    intro kept h
    simpa [removeOverlappingLoop] using h
  | cons f rest ih =>
    intro kept h
    simp only [removeOverlappingLoop]
    split
    · exact ih kept h
    · next hany =>
      apply ih
      rw [List.pairwise_append]
      refine ⟨h, List.pairwise_singleton _ _, ?_⟩
      intro a ha b hb
      rw [List.mem_singleton] at hb
      subst hb
      rw [List.any_eq_true] at hany
      push_neg at hany
      have hle := hany a ha
      simp only [ne_eq, decide_eq_true_eq] at hle
      rw [iou_comm]
      exact not_lt.mp hle

theorem removeOverlappingFaces_pairwise (t : Rat) (faces : List Face) :
    (removeOverlappingFaces t faces).Pairwise (fun a b => iou a.bbox b.bbox ≤ t) := by
  unfold removeOverlappingFaces
  split
  · next hlen =>
    rcases faces with _ | ⟨a, _ | ⟨b, rest⟩⟩
    · exact List.Pairwise.nil
    · exact List.pairwise_singleton _ _
    · exfalso
      simp only [List.length_cons] at hlen
      omega
  · exact removeOverlappingLoop_pairwise t _ [] List.Pairwise.nil

theorem testDetectionStrategy_pairwise (qstd : List Rat → Rat) (img : Image)
    (s : Strategy) (faces : List Face) :
    (testDetectionStrategy qstd img s faces).faces.Pairwise
      (fun a b => iou a.bbox b.bbox ≤ s.overlapThreshold) := by
  simp only [testDetectionStrategy]
  split <;> exact removeOverlappingFaces_pairwise _ _

theorem adjustFinalConfidence_pairwise (t : Rat) (faces : List Face)
    (h : faces.Pairwise (fun a b => iou a.bbox b.bbox ≤ t)) :
    (adjustFinalConfidence faces).Pairwise (fun a b => iou a.bbox b.bbox ≤ t) := by
  unfold adjustFinalConfidence
  split
  · exact h
  · exact h.map _ (fun a b hab => by simpa [adjustOne] using hab)

/-- C1: in the final result of the intelligent detection pipeline (the
winning strategy's filtered face list after the final confidence
adjustment), no two candidates overlap with IoU above the winning
strategy's overlap threshold. -/
theorem c1_final_result_iou_invariant (qstd : List Rat → Rat) (img : Image)
    (raw : List Face) :
    ((detectOptimalFacesFull qstd img raw).2).Pairwise
      (fun a b => iou a.bbox b.bbox ≤
        ((detectOptimalFacesFull qstd img raw).1).overlapThreshold) := by
  have hpair : ∀ s : Strategy,
      (adjustFinalConfidence
        (testDetectionStrategy qstd img s (initialQualityFilter img raw)).faces).Pairwise
          (fun a b => iou a.bbox b.bbox ≤ s.overlapThreshold) :=
    fun s => adjustFinalConfidence_pairwise _ _ (testDetectionStrategy_pairwise qstd img s _)
  exact hpair ((detectOptimalFacesFull qstd img raw).1)

/-- The scene bonus of the claim's score formula. -/
def scenarioBonus (sc : SceneKind) (n : Nat) : Rat :=
  if sc = SceneKind.portrait ∧ n = 1 then 30
  else if sc = SceneKind.group ∧ 2 ≤ n then 20
  else if sc = SceneKind.classroom ∧ 3 ≤ n then 25
  else 0

/-- The over-detection penalty of the claim's score formula; the division
is the integer (floor) division the source performs with int(). -/
def overdetectionPenalty (area : Nat) (n : Nat) : Rat :=
  if 2 * max 1 (area / 50000) < n then 15 else 0

/-- The quality bonus of the claim's score formula. -/
def qualityBonus (q : Rat) : Rat :=
  if 60 < q then 10 else if 40 < q then 5 else 0

theorem strategyScore_formula (ctx : ImageContext) (res : StratResult) :
    strategyScore ctx res = (4/10) * res.consistency_score
      + scenarioBonus ctx.likely res.faces.length
      - overdetectionPenalty ctx.area res.faces.length
      + qualityBonus res.avg_quality := by
  simp only [strategyScore, scenarioBonus, overdetectionPenalty, qualityBonus]
  rw [Nat.mul_comm (max 1 (ctx.area / 50000)) 2]
  split_ifs <;> ring

/-- The first highest-scoring strategy, in the iteration order
conservative, balanced, aggressive of the source's strategy dict:
Python's max keeps the current key unless a later key scores strictly
higher. -/
def argmaxStrategy (score : Strategy → Rat) : Strategy :=
  let m1 := Strategy.conservative
  let m2 := if score m1 < score .balanced then Strategy.balanced else m1
  if score m2 < score .aggressive then Strategy.aggressive else m2

theorem argmaxStrategy_le (score : Strategy → Rat) (s : Strategy) :
    score s ≤ score (argmaxStrategy score) := by
  simp only [argmaxStrategy]
  cases s <;> split_ifs <;> linarith

/-- C5: the per-strategy score is 0.4 times the consistency score plus
the scene bonus (30 for a portrait with one face, 20 for a group with at
least two, 25 for a classroom with at least three) minus the 15-point
over-detection penalty (when the count exceeds twice
max(1, floor(area / 50000))) plus the quality bonus (10 above average
quality 60, else 5 above 40); and the pipeline output is the adjusted
face set of a strategy whose score no other strategy exceeds. -/
theorem c5_strategy_scoring (qstd : List Rat → Rat) (img : Image) (raw : List Face)
    (ctx : ImageContext) (res : StratResult) :
    (strategyScore ctx res = (4/10) * res.consistency_score
      + scenarioBonus ctx.likely res.faces.length
      - overdetectionPenalty ctx.area res.faces.length
      + qualityBonus res.avg_quality) ∧
    (∀ s : Strategy,
      strategyScore (analyzeImageContext img (initialQualityFilter img raw))
          (testDetectionStrategy qstd img s (initialQualityFilter img raw)) ≤
        strategyScore (analyzeImageContext img (initialQualityFilter img raw))
          (testDetectionStrategy qstd img (detectOptimalFacesFull qstd img raw).1
            (initialQualityFilter img raw))) ∧
    ((detectOptimalFacesFull qstd img raw).2 =
      adjustFinalConfidence
        (testDetectionStrategy qstd img (detectOptimalFacesFull qstd img raw).1
          (initialQualityFilter img raw)).faces) := by
  refine ⟨strategyScore_formula ctx res, ?_, rfl⟩
  intro s
  exact argmaxStrategy_le
    (fun s => strategyScore (analyzeImageContext img (initialQualityFilter img raw))
      (testDetectionStrategy qstd img s (initialQualityFilter img raw))) s

/-- C9: the embedded pipeline is a pure function of the image and the
fixed backend responses, so two runs of the filtering pipeline (and of
the whole adaptive detection) on the same inputs yield identical final
face lists; the source contains no randomness and no cross-run state
that the filtering path consults. -/
theorem c9_pipeline_deterministic {Img : Type}
    (detect : YoloModel → Img → Except Unit (List Face))
    (enhance : Img → Rat → Img) (assess : Img → Rat) (toImage : Img → Image)
    (qstd : List Rat → Rat) (img : Img) (image2 : Image) (raw : List Face) :
    detectOptimalFaces qstd image2 raw = detectOptimalFaces qstd image2 raw ∧
    detectFacesAdaptive detect enhance assess toImage qstd img =
      detectFacesAdaptive detect enhance assess toImage qstd img :=
  ⟨rfl, rfl⟩

end FaceCore
